import Mathlib

/-!
Shallow embedding of the Tron bridge of `hardhat-deploy` (files
`src/tron/signer.ts`, `src/tron/provider.ts`, `src/tron/utils.ts`,
`src/tron/types.ts`) together with proofs about its specification.

Conventions of the embedding:
* JavaScript numbers that the code only ever uses as integers (timestamps,
  fee units, `BigNumber` values) are modelled as `ℤ`; `BigNumber.div`
  truncates toward zero, which is `Int.tdiv`.
* JavaScript floating-point factors (the per-contract energy factor) are
  modelled as `ℚ`; `Math.floor` is `Int.floor`.
* `undefined` / absent object fields are modelled with `Option`.
* Stateful methods become explicit state-passing functions: they take the
  current cache/registry state plus the values the network would return,
  and produce the result together with the new state and a flag or trace
  recording the observable effects (network calls, sleeps).
-/

namespace HardhatTron

/-! ## Time constants (`utils.ts`) -/

/-- `Time.MILLISECOND` from `utils.ts`. -/
def MILLISECOND : ℤ := 1

/-- `Time.SECOND` from `utils.ts`. -/
def SECOND : ℤ := 1000 * MILLISECOND

/-- `Time.MINUTE` from `utils.ts`. -/
def MINUTE : ℤ := 60 * SECOND

/-! ## Hex decoding and `TronWebError` (`utils.ts`)

`TronWebError`'s constructor converts the native error message from hex to
text via `Buffer.from(message, 'hex').toString()`. Node's hex decoder
consumes two hex digits per byte and stops at the first invalid pair; the
byte-to-text step is modelled on the ASCII range. -/

/-- Value of a single hex digit, `none` when the character is not a hex
digit. -/
def hexDigitVal (c : Char) : Option ℕ :=
  if '0' ≤ c ∧ c ≤ '9' then some (c.toNat - '0'.toNat)
  else if 'a' ≤ c ∧ c ≤ 'f' then some (c.toNat - 'a'.toNat + 10)
  else if 'A' ≤ c ∧ c ≤ 'F' then some (c.toNat - 'A'.toNat + 10)
  else none

/-- Bytes of a hex string, stopping at the first invalid pair (Node
`Buffer.from(·, 'hex')` behaviour). -/
def hexBytes : List Char → List ℕ
  | c1 :: c2 :: rest =>
    match hexDigitVal c1, hexDigitVal c2 with
    | some hi, some lo => (16 * hi + lo) :: hexBytes rest
    | _, _ => []
  | _ => []

/-- Hex-to-text decoding used by `TronWebError` (`utils.ts` line 16). -/
def hexDecode (s : String) : String :=
  String.mk ((hexBytes s.data).map Char.ofNat)

/-- The data carried by a thrown `TronWebError` (`utils.ts` lines 11-22):
native error code, the message decoded from hex to text, and the
transaction hash (`txid`) when the response carried one. -/
structure TronWebErrorData where
  code : String
  message : String
  hash : Option String
deriving DecidableEq

/-- A native broadcast response as seen by `sendRawTransaction` callers.
`result` is `none` when the field is absent and `some b` when present with
truthiness `b`; `txid` is `none` when absent. -/
structure BroadcastResponse where
  result : Option Bool
  code : String
  message : String
  txid : Option String
deriving DecidableEq

/-- Construction of `TronWebError` from an error-like broadcast response
(`utils.ts` lines 14-21). -/
def mkTronWebError (r : BroadcastResponse) : TronWebErrorData :=
  { code := r.code, message := hexDecode r.message, hash := r.txid }

/-- Modelled from the spec: `ensure0x` (imported from `./utils` by
`signer.ts` and `provider.ts` but not present in the provided `utils.ts`)
normalizes a hash/address to the canonical `0x`-prefixed form. -/
def ensure0x (s : String) : String :=
  if s.startsWith "0x" then s else "0x" ++ s

/-! ## Gas-price cache (`provider.ts`, `TronWeb3Provider.getGasPrice`) -/

/-- The `gasPrice` cache field `{time: number; value?: BigNumber}`. -/
structure PriceCache where
  time : ℤ
  value : Option ℤ
deriving DecidableEq

/-- `DEFAULT_ENERGY_PRICE` in `getGasPrice`. -/
def DEFAULT_ENERGY_PRICE : ℤ := 1000

/-- Result of a `getGasPrice` call: the returned price, the cache state
after the call, and whether a fresh network fetch happened. -/
structure PriceRead where
  price : ℤ
  cache : PriceCache
  fetched : Bool
deriving DecidableEq

/-- `TronWeb3Provider.getGasPrice` (`provider.ts` lines 241-248).
`now` is `Time.NOW` at the call, `fetch` is the value
`super.getGasPrice()` would produce (`none` models a nullish result,
replaced by the default price). Returns the cached value when the entry is
younger than 15 seconds and a value is present, else fetches and
overwrites the cache with the current timestamp. -/
def getGasPrice (now : ℤ) (fetch : Option ℤ) (c : PriceCache) : PriceRead :=
  match c.value with
  | some v =>
    if now - 15 * SECOND < c.time then ⟨v, c, false⟩
    else
      let gp := fetch.getD DEFAULT_ENERGY_PRICE
      ⟨gp, ⟨now, some gp⟩, true⟩
  | none =>
    let gp := fetch.getD DEFAULT_ENERGY_PRICE
    ⟨gp, ⟨now, some gp⟩, true⟩

/-! ## Energy-factor cache (`signer.ts`, `TronSigner.getEnergyFactor`) -/

/-- `MAX_ENERGY_FACTOR = 1.2` (`signer.ts` line 23). -/
def MAX_ENERGY_FACTOR : ℚ := 6 / 5

/-- `MAX_ENERGY_DIVISOR = 1000` (`signer.ts` line 25). -/
def MAX_ENERGY_DIVISOR : ℤ := 1000

/-- The `energyFactors` map `Map<string, {time: number; value: number}>`,
modelled as an association list keyed by contract address. -/
abbrev EnergyCache := List (String × ℤ × ℚ)

/-- `Map.get` on the energy-factor cache. -/
def ecGet (c : EnergyCache) (k : String) : Option (ℤ × ℚ) :=
  match c.find? (fun e => e.1 == k) with
  | some e => some e.2
  | none => none

/-- `Map.set` on the energy-factor cache: overwrite the entry when the key
exists, append it otherwise. -/
def ecSet (c : EnergyCache) (k : String) (v : ℤ × ℚ) : EnergyCache :=
  match c with
  | [] => [(k, v)]
  | e :: rest => if e.1 == k then (k, v) :: rest else e :: ecSet rest k v

/-- Result of a `getEnergyFactor` call: the factor, the cache after the
call, and whether a `wallet/getcontractinfo` network request happened. -/
structure FactorRead where
  factor : ℚ
  cache : EnergyCache
  fetched : Bool
deriving DecidableEq

/-- The defensive clamp in `getEnergyFactor` (`signer.ts` lines 141-153):
`energy_factor` starts at the maximum and is replaced by the response's
`contract_state.energy_factor` only when that field is present and
strictly below the maximum. `resp = none` models a missing or malformed
field (any JS comparison with `undefined`/`NaN` is false). -/
def clampFactor (resp : Option ℚ) : ℚ :=
  match resp with
  | some f => if f < MAX_ENERGY_FACTOR then f else MAX_ENERGY_FACTOR
  | none => MAX_ENERGY_FACTOR

/-- The cache-miss tail of `getEnergyFactor` (`signer.ts` lines 141-158):
for the empty address return the maximum with no network request and no
cache write; otherwise request the contract info, clamp the response, and
write the result to the cache with the current timestamp. -/
def getEnergyFactorMiss (now : ℤ) (addr : String) (resp : Option ℚ)
    (c : EnergyCache) : FactorRead :=
  if addr = "" then ⟨MAX_ENERGY_FACTOR, c, false⟩
  else
    let ef := clampFactor resp
    ⟨ef, ecSet c addr (now, ef), true⟩

/-- `TronSigner.getEnergyFactor` (`signer.ts` lines 136-159). `resp` is
the `contract_state.energy_factor` field the network would return. The
cached value is returned when the entry is younger than 10 minutes. -/
def getEnergyFactor (now : ℤ) (addr : String) (resp : Option ℚ)
    (c : EnergyCache) : FactorRead :=
  match ecGet c addr with
  | some (t, v) =>
    if now - 10 * MINUTE < t then ⟨v, c, false⟩
    else getEnergyFactorMiss now addr resp c
  | none => getEnergyFactorMiss now addr resp c

/-! ## Fee-limit computation (`signer.ts`, `TronSigner.getFeeLimit`) -/

/-- `TronSigner.getFeeLimit` (`signer.ts` lines 87-117), given the
energy factor obtained for the target contract, the (truthy-checked)
`overrides.gasLimit`, the consumption the estimation call would return,
and the energy price. The factor `1 + energy_factor` is scaled by
`MAX_ENERGY_DIVISOR` and floored, the product is divided (BigNumber
truncating division) by the divisor afterwards. The function hexlifies
the result; the model returns the numeric value. -/
def getFeeLimit (energy_factor : ℚ) (overridesGasLimit : Option ℤ)
    (estimated price : ℤ) : ℤ :=
  let factor : ℚ := 1 + energy_factor
  let factor_adj : ℤ := Int.floor (factor * (MAX_ENERGY_DIVISOR : ℚ))
  let energy_consumption : ℤ :=
    match overridesGasLimit with
    | some g => if g = 0 then estimated else g
    | none => estimated
  Int.tdiv (energy_consumption * price * factor_adj) MAX_ENERGY_DIVISOR

/-- The fee-limit computation as the specification words it: the
scaled-integer product, capped at the network-wide maximum fee limit when
the native service exposes one (`maxFeeLimit = some m`). -/
def specFeeLimit (energy_factor : ℚ) (consumption price : ℤ)
    (maxFeeLimit : Option ℤ) : ℤ :=
  let scaled :=
    Int.tdiv (consumption * price * Int.floor ((1 + energy_factor) * 1000)) 1000
  match maxFeeLimit with
  | some m => min scaled m
  | none => scaled

/-! ## Native transfer rescale (`provider.ts`, `TronWeb3Provider.sendTrx`) -/

/-- The amount handed to the native transfer builder by `sendTrx`
(`provider.ts` lines 294-298): `value` is divided by `10^12` (BigNumber
truncating division) whenever it strictly exceeds `10^9`, and passed
unchanged otherwise; the subsequent `Math.floor(value.toNumber())` is the
identity on integers. -/
def sendTrxAmount (value : ℤ) : ℤ :=
  if 10 ^ 9 < value then Int.tdiv value (10 ^ 12) else value

/-! ## Confirmation polling (`provider.ts`, `TronWeb3Provider._buildWait`) -/

/-- An EVM-shaped transaction receipt, reduced to the fields the wait
closure inspects; `status` is `none` when the field is absent. -/
structure Receipt where
  status : Option ℕ
  blockNumber : ℕ
deriving DecidableEq

/-- Outcome of the wait closure: a returned receipt, or a thrown
`TronTransactionFailedError` carrying the receipt. -/
inductive WaitOutcome
  | ok (r : Receipt)
  | txFailed (r : Receipt)
deriving DecidableEq

/-- The polling loop of `_buildWait` (`provider.ts` lines 326-333):
while `targetConfirmations` is truthy (nonzero) and the current count is
below it, sleep one second and re-poll the confirmation count. `polls` is
the stream of counts successive `getTransaction` calls would report; the
result is the number of one-second sleeps performed paired with the final
count, or `none` when the modelled stream runs out. -/
def confLoop (target : ℕ) : ℕ → List ℕ → Option (ℕ × ℕ)
  | curr, [] =>
    if target ≠ 0 ∧ curr < target then none else some (0, curr)
  | curr, p :: rest =>
    if target ≠ 0 ∧ curr < target then
      (confLoop target p rest).map (fun r => (r.1 + 1, r.2))
    else some (0, curr)

/-- The closure returned by `_buildWait` (`provider.ts` lines 322-341),
applied to an optional confirmation target (`none` models calling it with
no argument; a `targetConfirmations` of `0` is falsy, like `undefined`).
After the loop the receipt is fetched; a receipt whose `status` is
strictly equal to `0` is thrown as `TronTransactionFailedError`, any
other receipt is returned. The first component counts the one-second
sleeps performed. -/
def buildWait (initialConfirmations : ℕ) (targetConfirmations : Option ℕ)
    (polls : List ℕ) (receipt : Receipt) : Option (ℕ × WaitOutcome) :=
  (confLoop (targetConfirmations.getD 0) initialConfirmations polls).map
    fun r =>
      (r.1, if receipt.status = some 0 then WaitOutcome.txFailed receipt
            else WaitOutcome.ok receipt)

/-! ## Broadcast-failure check (`signer.ts` `create`, `provider.ts`
`sendTrx`) -/

/-- Observable steps taken after a broadcast. -/
inductive NetEvent
  | sleep (ms : ℤ)
  | getTransaction (hash : String)
deriving DecidableEq

/-- The part of `TronSigner.create` that follows the raw-transaction
broadcast (`signer.ts` lines 72-84): when the response lacks a truthy
`result` field, throw `TronWebError` built from the response before any
grace-period sleep or transaction fetch; otherwise sleep 5 seconds and
fetch the transaction by the 0x-normalized hash. The event list records
the sleeps and fetches actually performed. -/
def createAfterBroadcast (resp : BroadcastResponse) :
    List NetEvent × Except TronWebErrorData String :=
  if resp.result = some true then
    let hash := ensure0x (resp.txid.getD "")
    ([NetEvent.sleep (5 * SECOND), NetEvent.getTransaction hash],
      Except.ok hash)
  else ([], Except.error (mkTronWebError resp))

/-- The identical check-then-wait-then-fetch tail of
`TronWeb3Provider.sendTrx` (`provider.ts` lines 301-307). -/
def sendTrxAfterBroadcast (resp : BroadcastResponse) :
    List NetEvent × Except TronWebErrorData String :=
  if resp.result = some true then
    let hash := ensure0x (resp.txid.getD "")
    ([NetEvent.sleep (5 * SECOND), NetEvent.getTransaction hash],
      Except.ok hash)
  else ([], Except.error (mkTronWebError resp))

/-! ## `sendTransaction` dispatch and `create`'s field stripping
(`signer.ts`, `types.ts`) -/

/-- `TronTxMethods.CREATE = 'create'` (`types.ts`). -/
def CREATE : String := "create"

/-- Where `TronSigner.sendTransaction` routes a request. -/
inductive TxOutcome
  | delegatedBase
  | ranCreate
  | unsupported (msg : String)
deriving DecidableEq

/-- `TronSigner.sendTransaction` (`signer.ts` lines 48-58), as a function
of the request's `method` field (`none` = the key is absent). The event
list records network activity performed by the dispatch itself before
delegating or throwing: there is none on any branch — in particular the
unsupported branch throws before any network call. -/
def sendTransactionDispatch (method : Option String) :
    List NetEvent × TxOutcome :=
  match method with
  | none => ([], TxOutcome.delegatedBase)
  | some m =>
    if m = CREATE then ([], TxOutcome.ranCreate)
    else ([], TxOutcome.unsupported "sendTransaction method not implemented")

/-- A `CreateSmartContract` request (`types.ts`), with the fields `create`
touches plus the payload fields it must leave intact. `method` and `data`
are `Option`s since `delete` removes the keys. -/
structure CreateSmartContract where
  method : Option String
  data : Option String
  feeLimit : Option ℤ
  callValue : ℤ
  userFeePercentage : ℤ
  originEnergyLimit : ℤ
  abi : String
  bytecode : String
  rawParameter : String
  name : String
deriving DecidableEq

/-- The in-place mutation at the top of `TronSigner.create` (`signer.ts`
lines 61-62): `delete transaction.method; delete transaction.data` on the
caller's object, modelled as returning the mutated record. -/
def createStrip (t : CreateSmartContract) : CreateSmartContract :=
  { t with method := none, data := none }

/-! ## Signer registry (`provider.ts`, `TronWeb3Provider.addSigner`) -/

/-- The provider's signer registry: the `Map<string, TronSigner>` keyed by
address (association list, insertion order), plus a counter producing the
identity of the next `TronSigner` instance the constructor would create. -/
structure ProviderState where
  signers : List (String × ℕ)
  nextId : ℕ
deriving DecidableEq

/-- `Map.get` on the signer registry. -/
def lookupSigner (st : ProviderState) (addr : String) : Option ℕ :=
  match st.signers.find? (fun e => e.1 == addr) with
  | some e => some e.2
  | none => none

/-- `TronWeb3Provider.addSigner` (`provider.ts` lines 188-194): derive the
address from the private key, return the registered signer when one
exists, else construct a new signer instance, register it under the
address, and return it. `derive` models `new Wallet(pk).address`. -/
def addSigner (derive : String → String) (st : ProviderState)
    (pk : String) : ℕ × ProviderState :=
  let addr := derive pk
  match lookupSigner st addr with
  | some s => (s, st)
  | none =>
    (st.nextId, ⟨st.signers ++ [(addr, st.nextId)], st.nextId + 1⟩)

/-! ## Theorems -/

/-- Claim C1 counterexample: at consumption 1000, energy factor 0.2 and
price 1000, `getFeeLimit` returns 1200000 whatever maximum the native
service exposes, while the claimed computation capped at an exposed
maximum of 100 returns 100 — the code never caps the fee limit. -/
theorem getFeeLimit_ignores_network_max :
    getFeeLimit (1 / 5) none 1000 1000 = 1200000 ∧
    specFeeLimit (1 / 5) 1000 1000 (some 100) = 100 ∧
    ¬ getFeeLimit (1 / 5) none 1000 1000 ≤ 100 := by
  have h1 : getFeeLimit (1 / 5) none 1000 1000 = 1200000 := by
    norm_num [getFeeLimit, MAX_ENERGY_DIVISOR]
    decide
  have h2 : specFeeLimit (1 / 5) 1000 1000 (some 100) = 100 := by
    norm_num [specFeeLimit]
    decide
  refine ⟨h1, h2, ?_⟩
  rw [h1]
  decide

/-- Claim C1 (amended): for every unsigned transaction, `getFeeLimit`
returns `resourceConsumption × (1 + resourceFactor) × resourcePrice`
computed in overflow-safe scaled-integer arithmetic (the factor
multiplied by 1000 and floored before the multiplication, the product
divided by 1000 afterwards), with `resourceConsumption` taken from
`overrides.gasLimit` when supplied (and nonzero, i.e. truthy) and from
the estimation call otherwise; the result is never capped at a
network-wide maximum fee limit. -/
theorem getFeeLimit_scaled_uncapped (f : ℚ) (est p g : ℤ) :
    getFeeLimit f none est p = specFeeLimit f est p none ∧
    (g ≠ 0 → getFeeLimit f (some g) est p = specFeeLimit f g p none) := by
  constructor
  · norm_num [getFeeLimit, specFeeLimit, MAX_ENERGY_DIVISOR]
  · intro hg
    norm_num [getFeeLimit, specFeeLimit, MAX_ENERGY_DIVISOR, hg]

/-- Witness for the amended claim C1 at energy factor 0.2, override gas
limit 3, estimation 7, price 1000. -/
theorem getFeeLimit_scaled_uncapped_witness :
    (3 : ℤ) ≠ 0 ∧
    getFeeLimit (1 / 5) (some 3) 7 1000 = specFeeLimit (1 / 5) 3 1000 none :=
  ⟨by decide, (getFeeLimit_scaled_uncapped (1 / 5) 7 1000 3).2 (by decide)⟩

/-- Claim C2 counterexample: `sendTrx` with raw value `5×10⁹` hands the
native builder the amount `0` (the truncated quotient `5×10⁹ / 10¹²`),
not `5` as the claim states. -/
theorem sendTrxAmount_five_billion :
    sendTrxAmount (5 * 10 ^ 9) = 0 ∧ (0 : ℤ) ≠ 5 := by
  constructor <;> decide

/-- Claim C2 (amended): the transferred amount equals `value / 10¹²`
(native integer truncation) whenever the raw value strictly exceeds
`10⁹`, and equals `value` unchanged otherwise; in particular
`value = 5×10⁹` is rescaled to `0` and `value = 10⁸` is left
unchanged. -/
theorem sendTrxAmount_rescale (v : ℤ) :
    (10 ^ 9 < v → sendTrxAmount v = Int.tdiv v (10 ^ 12)) ∧
    (¬ 10 ^ 9 < v → sendTrxAmount v = v) ∧
    sendTrxAmount (5 * 10 ^ 9) = 0 ∧
    sendTrxAmount (10 ^ 8) = 10 ^ 8 := by
  refine ⟨fun h => ?_, fun h => ?_, by decide, by decide⟩
  · unfold sendTrxAmount
    rw [if_pos h]
  · unfold sendTrxAmount
    rw [if_neg h]

/-- Witness for the amended claim C2 at value `2×10¹²`. -/
theorem sendTrxAmount_rescale_witness :
    (10 ^ 9 : ℤ) < 2 * 10 ^ 12 ∧
    sendTrxAmount (2 * 10 ^ 12) = Int.tdiv (2 * 10 ^ 12) (10 ^ 12) :=
  ⟨by decide, (sendTrxAmount_rescale (2 * 10 ^ 12)).1 (by decide)⟩

/-- Overwriting a key and reading it back yields the written entry. -/
theorem ecGet_ecSet_self (c : EnergyCache) (k : String) (v : ℤ × ℚ) :
    ecGet (ecSet c k v) k = some v := by
  induction c with
  | nil => simp [ecSet, ecGet, List.find?]
  | cons e rest ih =>
    by_cases h : e.1 == k
    · simp [ecSet, h, ecGet, List.find?]
    · simp only [ecSet, h, Bool.false_eq_true, if_false]
      simpa [ecGet, List.find?, h] using ih

/-- Overwriting one key leaves reads of other keys unchanged. -/
theorem ecGet_ecSet_ne (c : EnergyCache) (k k2 : String) (v : ℤ × ℚ)
    (h : k2 ≠ k) : ecGet (ecSet c k v) k2 = ecGet c k2 := by
  have hbeq : (k == k2) = false := by
    simp [BEq.beq]
    exact fun hk => h hk.symm
  induction c with
  | nil => simp [ecSet, ecGet, List.find?, hbeq]
  | cons e rest ih =>
    by_cases he : e.1 == k
    · have he2 : (e.1 == k2) = false := by
        have : e.1 = k := by simpa using he
        simp [this, hbeq]
      simp [ecSet, he, ecGet, List.find?, hbeq, he2]
    · simp only [ecSet, he, Bool.false_eq_true, if_false]
      by_cases he2 : e.1 == k2
      · simp [ecGet, List.find?, he2]
      · simpa [ecGet, List.find?, he2] using ih

/-- Claim C3: for both TTL caches (gas price, 15-second TTL; per-contract
energy factor, 10-minute TTL): a read at `t0 + ε` with `ε < TTL` returns
the value cached at `t0` with no fresh fetch; a read at `t0 + TTL + ε`
(`ε ≥ 0`) fetches a fresh value and overwrites the cache entry with the
current timestamp; every read returns either the cached value (only while
fresh — a stale cached value is never returned) or the freshly fetched
value. For the energy-factor cache the refresh and dichotomy clauses
concern non-empty addresses, the only ones the cache ever holds. -/
theorem ttl_cache_behavior :
    (∀ (t0 ε v : ℤ) (fetch : Option ℤ), ε < 15 * SECOND →
      getGasPrice (t0 + ε) fetch ⟨t0, some v⟩ = ⟨v, ⟨t0, some v⟩, false⟩) ∧
    (∀ (t0 ε v : ℤ) (fetch : Option ℤ), 0 ≤ ε →
      getGasPrice (t0 + 15 * SECOND + ε) fetch ⟨t0, some v⟩ =
        ⟨fetch.getD DEFAULT_ENERGY_PRICE,
         ⟨t0 + 15 * SECOND + ε, some (fetch.getD DEFAULT_ENERGY_PRICE)⟩,
         true⟩) ∧
    (∀ (now : ℤ) (fetch : Option ℤ) (c : PriceCache),
      ((getGasPrice now fetch c).fetched = false →
        c.value = some (getGasPrice now fetch c).price ∧
        now - c.time < 15 * SECOND) ∧
      ((getGasPrice now fetch c).fetched = true →
        (getGasPrice now fetch c).price = fetch.getD DEFAULT_ENERGY_PRICE ∧
        (getGasPrice now fetch c).cache =
          ⟨now, some (fetch.getD DEFAULT_ENERGY_PRICE)⟩)) ∧
    (∀ (t0 ε : ℤ) (addr : String) (fv : ℚ) (resp : Option ℚ)
        (c : EnergyCache), ecGet c addr = some (t0, fv) → ε < 10 * MINUTE →
      getEnergyFactor (t0 + ε) addr resp c = ⟨fv, c, false⟩) ∧
    (∀ (t0 ε : ℤ) (addr : String) (fv : ℚ) (resp : Option ℚ)
        (c : EnergyCache), addr ≠ "" → ecGet c addr = some (t0, fv) →
        0 ≤ ε →
      getEnergyFactor (t0 + 10 * MINUTE + ε) addr resp c =
        ⟨clampFactor resp,
         ecSet c addr (t0 + 10 * MINUTE + ε, clampFactor resp), true⟩) ∧
    (∀ (now : ℤ) (addr : String) (resp : Option ℚ) (c : EnergyCache),
        addr ≠ "" →
      ((getEnergyFactor now addr resp c).fetched = false →
        ∃ t, ecGet c addr = some (t, (getEnergyFactor now addr resp c).factor) ∧
          now - t < 10 * MINUTE) ∧
      ((getEnergyFactor now addr resp c).fetched = true →
        (getEnergyFactor now addr resp c).factor = clampFactor resp ∧
        (getEnergyFactor now addr resp c).cache =
          ecSet c addr (now, clampFactor resp))) := by
  refine ⟨?_, ?_, ?_, ?_, ?_, ?_⟩
  · intro t0 ε v fetch hε
    simp only [getGasPrice]
    rw [if_pos (by omega)]
  · intro t0 ε v fetch hε
    simp only [getGasPrice]
    rw [if_neg (by omega)]
  · intro now fetch c
    rcases c with ⟨t, v⟩
    cases v with
    | none => simp [getGasPrice]
    | some v =>
      simp only [getGasPrice]
      split_ifs with h
      · exact ⟨fun _ => ⟨rfl, by omega⟩, fun hf => by simp at hf⟩
      · simp
  · intro t0 ε addr fv resp c hc hε
    simp only [getEnergyFactor, hc]
    rw [if_pos (by omega)]
  · intro t0 ε addr fv resp c haddr hc hε
    simp only [getEnergyFactor, hc]
    rw [if_neg (by omega)]
    simp only [getEnergyFactorMiss]
    rw [if_neg haddr]
  · intro now addr resp c haddr
    have hmiss : getEnergyFactorMiss now addr resp c =
        ⟨clampFactor resp, ecSet c addr (now, clampFactor resp), true⟩ := by
      simp only [getEnergyFactorMiss]
      rw [if_neg haddr]
    rcases hc : ecGet c addr with _ | ⟨t, fv⟩
    · have hres : getEnergyFactor now addr resp c =
          ⟨clampFactor resp, ecSet c addr (now, clampFactor resp), true⟩ := by
        simp only [getEnergyFactor, hc, hmiss]
      rw [hres]
      exact ⟨fun hf => by simp at hf, fun _ => ⟨rfl, rfl⟩⟩
    · by_cases h : now - 10 * MINUTE < t
      · have hres : getEnergyFactor now addr resp c = ⟨fv, c, false⟩ := by
          simp only [getEnergyFactor, hc]
          rw [if_pos h]
        rw [hres]
        exact ⟨fun _ => ⟨t, rfl, by omega⟩, fun hf => by simp at hf⟩
      · have hres : getEnergyFactor now addr resp c =
            ⟨clampFactor resp, ecSet c addr (now, clampFactor resp), true⟩ := by
          simp only [getEnergyFactor, hc]
          rw [if_neg h, hmiss]
        rw [hres]
        exact ⟨fun hf => by simp at hf, fun _ => ⟨rfl, rfl⟩⟩

/-- Witness for claim C3: a fresh gas-price read at `t0 = 0`, `ε = 10`
returns the cached 7 without fetching, and an expired energy-factor read
at `t0 = 0`, `ε = 15000` refreshes the entry and stamps it with the
current time. -/
theorem ttl_cache_behavior_witness :
    getGasPrice (0 + 10) (some 42) ⟨0, some 7⟩ = ⟨7, ⟨0, some 7⟩, false⟩ ∧
    getEnergyFactor (0 + 10 * MINUTE + 15000) "c" (some (1 / 2))
        [("c", 0, 1 / 3)] =
      ⟨clampFactor (some (1 / 2)),
       ecSet [("c", 0, 1 / 3)] "c"
         (0 + 10 * MINUTE + 15000, clampFactor (some (1 / 2))), true⟩ := by
  constructor
  · exact ttl_cache_behavior.1 0 10 7 (some 42)
      (by simp [SECOND, MILLISECOND])
  · exact ttl_cache_behavior.2.2.2.2.1 0 15000 "c" (1 / 3) (some (1 / 2))
      [("c", 0, 1 / 3)] (by decide) rfl (by decide)

/-- Claim C4: `getEnergyFactor` with the empty address returns the
configured maximum factor with no network call (and, since no operation
ever writes an entry for the empty address, this holds on every reachable
cache); for a non-empty address on cache miss — no entry, or an entry at
least the TTL old — the effective factor is the response factor `f` when
`f` is strictly below the maximum and the maximum otherwise (including a
missing or malformed response), and that factor is written to the cache
with the current timestamp. -/
theorem getEnergyFactor_empty_and_clamp :
    (∀ (now : ℤ) (resp : Option ℚ) (c : EnergyCache), ecGet c "" = none →
      getEnergyFactor now "" resp c = ⟨MAX_ENERGY_FACTOR, c, false⟩) ∧
    (∀ (now : ℤ) (addr : String) (resp : Option ℚ) (c : EnergyCache),
      ecGet c "" = none →
      ecGet (getEnergyFactor now addr resp c).cache "" = none) ∧
    (∀ (now : ℤ) (addr : String) (resp : Option ℚ) (c : EnergyCache),
      addr ≠ "" →
      (ecGet c addr = none ∨
        ∃ t v, ecGet c addr = some (t, v) ∧ t ≤ now - 10 * MINUTE) →
      getEnergyFactor now addr resp c =
        ⟨clampFactor resp, ecSet c addr (now, clampFactor resp), true⟩ ∧
      ecGet (ecSet c addr (now, clampFactor resp)) addr =
        some (now, clampFactor resp)) ∧
    (∀ f : ℚ, clampFactor (some f) =
      if f < MAX_ENERGY_FACTOR then f else MAX_ENERGY_FACTOR) ∧
    clampFactor none = MAX_ENERGY_FACTOR := by
  have hmiss : ∀ (now : ℤ) (addr : String) (resp : Option ℚ)
      (c : EnergyCache), addr ≠ "" →
      getEnergyFactorMiss now addr resp c =
        ⟨clampFactor resp, ecSet c addr (now, clampFactor resp), true⟩ := by
    intro now addr resp c haddr
    simp only [getEnergyFactorMiss]
    rw [if_neg haddr]
  refine ⟨?_, ?_, ?_, fun _ => rfl, rfl⟩
  · intro now resp c hc
    simp [getEnergyFactor, hc, getEnergyFactorMiss]
  · intro now addr resp c hc
    by_cases haddr : addr = ""
    · subst haddr
      simp [getEnergyFactor, hc, getEnergyFactorMiss]
    · rcases hcs : ecGet c addr with _ | ⟨t, v⟩
      · rw [show getEnergyFactor now addr resp c =
            ⟨clampFactor resp, ecSet c addr (now, clampFactor resp), true⟩
          from by simp only [getEnergyFactor, hcs, hmiss now addr resp c haddr]]
        rw [ecGet_ecSet_ne c addr "" (now, clampFactor resp)
          (fun h => haddr h.symm)]
        exact hc
      · simp only [getEnergyFactor, hcs]
        split_ifs with ht
        · exact hc
        · rw [hmiss now addr resp c haddr]
          rw [ecGet_ecSet_ne c addr "" (now, clampFactor resp)
            (fun h => haddr h.symm)]
          exact hc
  · intro now addr resp c haddr hmiss2
    refine ⟨?_, ecGet_ecSet_self c addr (now, clampFactor resp)⟩
    rcases hmiss2 with hnone | ⟨t, v, hsome, ht⟩
    · simp only [getEnergyFactor, hnone, hmiss now addr resp c haddr]
    · simp only [getEnergyFactor, hsome]
      rw [if_neg (by omega), hmiss now addr resp c haddr]

/-- Witness for claim C4: the empty address on the empty cache yields the
maximum factor without a network call; a miss on address `"c"` with
response factor `2` (not below the maximum) caches and returns the
maximum. -/
theorem getEnergyFactor_empty_and_clamp_witness :
    getEnergyFactor 0 "" (some 2) [] = ⟨MAX_ENERGY_FACTOR, [], false⟩ ∧
    getEnergyFactor 0 "c" (some 2) [] =
      ⟨clampFactor (some 2), ecSet [] "c" (0, clampFactor (some 2)),
       true⟩ := by
  constructor
  · exact getEnergyFactor_empty_and_clamp.1 0 (some 2) [] rfl
  · exact (getEnergyFactor_empty_and_clamp.2.2.1 0 "c" (some 2) []
      (by decide) (Or.inl rfl)).1

/-- Claim C5: the wait closure, called with a target `k`, sleeps one
second and re-polls while the observed count is below `k` (a positive
target); once the count is sufficient it stops without sleeping; with
initial count `0`, successive polled counts `[1, 1, 3]` and target `3`
it performs exactly 3 one-second waits before fetching the receipt; a
receipt with status `0` is thrown as `TronTransactionFailedError`
carrying the receipt instead of being returned. -/
theorem buildWait_polling (r : Receipt) (k curr p : ℕ) (rest : List ℕ)
    (hk : k ≠ 0) :
    (¬ curr < k → ∀ polls : List ℕ, confLoop k curr polls = some (0, curr)) ∧
    (curr < k → confLoop k curr (p :: rest) =
      (confLoop k p rest).map (fun q => (q.1 + 1, q.2))) ∧
    (r.status ≠ some 0 →
      buildWait 0 (some 3) [1, 1, 3] r = some (3, WaitOutcome.ok r)) ∧
    (r.status = some 0 →
      buildWait 0 (some 3) [1, 1, 3] r = some (3, WaitOutcome.txFailed r)) := by
  have hloop : confLoop 3 0 [1, 1, 3] = some (3, 3) := by decide
  refine ⟨?_, ?_, ?_, ?_⟩
  · intro h polls
    cases polls with
    | nil => simp [confLoop, h]
    | cons q qs => simp [confLoop, h]
  · intro h
    simp [confLoop, hk, h]
  · intro h
    simp [buildWait, hloop, h]
  · intro h
    simp [buildWait, hloop, h]

/-- Witness for claim C5 at the spec's inputs: initial count 0, polls
`[1, 1, 3]`, target 3, a successful receipt and a failed receipt. -/
theorem buildWait_polling_witness :
    buildWait 0 (some 3) [1, 1, 3] ⟨some 1, 9⟩ =
      some (3, WaitOutcome.ok ⟨some 1, 9⟩) ∧
    buildWait 0 (some 3) [1, 1, 3] ⟨some 0, 9⟩ =
      some (3, WaitOutcome.txFailed ⟨some 0, 9⟩) ∧
    confLoop 3 5 [7] = some (0, 5) :=
  ⟨(buildWait_polling ⟨some 1, 9⟩ 3 5 7 [] (by decide)).2.2.1 (by decide),
   (buildWait_polling ⟨some 0, 9⟩ 3 5 7 [] (by decide)).2.2.2 rfl,
   (buildWait_polling ⟨some 1, 9⟩ 3 5 7 [] (by decide)).1 (by decide) [7]⟩

/-- Claim C6: whenever the native broadcast response lacks a truthy
`result` field — whatever other fields are present — `create` and
`sendTrx` throw a `TronWebError` built from the response, carrying the
native error code, the message decoded from hex to text and the
transaction hash when present, before any grace-period sleep or
transaction fetch (the recorded event trace is empty). -/
theorem broadcast_failure_raises (resp : BroadcastResponse)
    (h : resp.result ≠ some true) :
    createAfterBroadcast resp = ([], Except.error (mkTronWebError resp)) ∧
    sendTrxAfterBroadcast resp = ([], Except.error (mkTronWebError resp)) ∧
    (mkTronWebError resp).code = resp.code ∧
    (mkTronWebError resp).message = hexDecode resp.message ∧
    (mkTronWebError resp).hash = resp.txid := by
  refine ⟨?_, ?_, rfl, rfl, rfl⟩
  · simp only [createAfterBroadcast]
    rw [if_neg h]
  · simp only [sendTrxAfterBroadcast]
    rw [if_neg h]

/-- Witness for claim C6: a response with no `result` field, code
`SIGERROR`, hex message `48656c6c6f` (which decodes to `Hello`) and a
transaction id. -/
theorem broadcast_failure_raises_witness :
    ((⟨none, "SIGERROR", "48656c6c6f", some "ab"⟩ : BroadcastResponse).result
        ≠ some true) ∧
    createAfterBroadcast ⟨none, "SIGERROR", "48656c6c6f", some "ab"⟩ =
      ([], Except.error
        (mkTronWebError ⟨none, "SIGERROR", "48656c6c6f", some "ab"⟩)) ∧
    mkTronWebError ⟨none, "SIGERROR", "48656c6c6f", some "ab"⟩ =
      ⟨"SIGERROR", "Hello", some "ab"⟩ :=
  ⟨by decide,
   (broadcast_failure_raises ⟨none, "SIGERROR", "48656c6c6f", some "ab"⟩
     (by decide)).1,
   by decide⟩

/-- Claim C10: calling the wait closure with a target of `0` behaves
exactly like calling it with no target, whatever the initial confirmation
count and whatever the poll stream: it performs no sleep and no
confirmation poll and immediately returns the receipt-check outcome. -/
theorem buildWait_zero_target (init : ℕ) (polls polls2 : List ℕ)
    (r : Receipt) :
    buildWait init (some 0) polls r = buildWait init none polls2 r ∧
    buildWait init (some 0) polls r =
      some (0, if r.status = some 0 then WaitOutcome.txFailed r
               else WaitOutcome.ok r) := by
  have h : ∀ ps : List ℕ, confLoop 0 init ps = some (0, init) := by
    intro ps
    cases ps <;> simp [confLoop]
  constructor
  · simp [buildWait, h]
  · simp [buildWait, h]

/-- Claim C7: `addSigner` is idempotent — a second call with the same
private key returns the very signer instance the first call returned and
leaves the registry unchanged (so its size does not grow), and the
registry keeps at most one signer per address. -/
theorem addSigner_idempotent (derive : String → String)
    (st : ProviderState) (pk : String)
    (hnodup : (st.signers.map Prod.fst).Nodup) :
    (addSigner derive (addSigner derive st pk).2 pk).1 =
      (addSigner derive st pk).1 ∧
    (addSigner derive (addSigner derive st pk).2 pk).2 =
      (addSigner derive st pk).2 ∧
    (addSigner derive (addSigner derive st pk).2 pk).2.signers.length =
      (addSigner derive st pk).2.signers.length ∧
    ((addSigner derive st pk).2.signers.map Prod.fst).Nodup := by
  rcases h : lookupSigner st (derive pk) with _ | s
  · have hfind : st.signers.find? (fun e => e.1 == derive pk) = none := by
      simp only [lookupSigner] at h
      rcases hf : st.signers.find? (fun e => e.1 == derive pk) with _ | e
      · exact hf
      · rw [hf] at h
        simp at h
    have hnotin : derive pk ∉ st.signers.map Prod.fst := by
      rw [List.find?_eq_none] at hfind
      intro hmem
      rcases List.mem_map.mp hmem with ⟨e, hmem2, heq⟩
      exact absurd (by simp [heq]) (hfind e hmem2)
    have h1 : addSigner derive st pk =
        (st.nextId, ⟨st.signers ++ [(derive pk, st.nextId)],
          st.nextId + 1⟩) := by
      simp only [addSigner, h]
    have h2 : lookupSigner
        ⟨st.signers ++ [(derive pk, st.nextId)], st.nextId + 1⟩
        (derive pk) = some st.nextId := by
      simp only [lookupSigner, List.find?_append, hfind, Option.none_or,
        List.find?]
      simp
    rw [h1]
    refine ⟨?_, ?_, ?_, ?_⟩
    · simp only [addSigner, h2]
    · simp only [addSigner, h2]
    · simp only [addSigner, h2]
    · simp only [List.map_append, List.map_cons, List.map_nil]
      rw [List.nodup_append]
      refine ⟨hnodup, List.nodup_singleton _, ?_⟩
      intro a ha hb
      rw [List.mem_singleton] at hb
      subst hb
      exact hnotin ha
  · have h1 : addSigner derive st pk = (s, st) := by
      simp only [addSigner, h]
    rw [h1]
    simp only [addSigner, h]
    exact ⟨trivial, trivial, trivial, hnodup⟩

/-- Witness for claim C7: adding a signer for key `"k"` twice to the
empty registry, with the identity as address derivation. -/
theorem addSigner_idempotent_witness :
    ((((⟨[], 0⟩ : ProviderState)).signers.map Prod.fst).Nodup) ∧
    (addSigner (fun s => s)
        (addSigner (fun s => s) ⟨[], 0⟩ "k").2 "k").2 =
      (addSigner (fun s => s) ⟨[], 0⟩ "k").2 :=
  ⟨List.nodup_nil,
   (addSigner_idempotent (fun s => s) ⟨[], 0⟩ "k" List.nodup_nil).2.1⟩

/-- Claim C8: `TronSigner.sendTransaction` with a `method` tag other than
the known create tag throws `UnsupportedOperationError`
(`sendTransaction method not implemented`) having performed no network
call; a request without a `method` tag goes to the base submission path;
a request tagged `create` is handled by `create`. -/
theorem sendTransaction_dispatch (s : String) (h : s ≠ CREATE) :
    sendTransactionDispatch (some s) =
      ([], TxOutcome.unsupported "sendTransaction method not implemented") ∧
    sendTransactionDispatch none = ([], TxOutcome.delegatedBase) ∧
    sendTransactionDispatch (some CREATE) = ([], TxOutcome.ranCreate) := by
  refine ⟨?_, rfl, ?_⟩
  · simp only [sendTransactionDispatch]
    rw [if_neg h]
  · simp [sendTransactionDispatch]

/-- Witness for claim C8 with the unrecognized tag `"call"`. -/
theorem sendTransaction_dispatch_witness :
    "call" ≠ CREATE ∧
    sendTransactionDispatch (some "call") =
      ([], TxOutcome.unsupported "sendTransaction method not implemented") :=
  ⟨by decide, (sendTransaction_dispatch "call" (by decide)).1⟩

/-- Claim C9: `create` deletes the `method` and `data` fields from the
caller's request object itself, leaving every other field intact, so a
second submission of the same object no longer carries the create tag and
is routed to the base submission path. -/
theorem create_strips_request (t : CreateSmartContract) :
    (createStrip t).method = none ∧
    (createStrip t).data = none ∧
    (createStrip t).feeLimit = t.feeLimit ∧
    (createStrip t).callValue = t.callValue ∧
    (createStrip t).userFeePercentage = t.userFeePercentage ∧
    (createStrip t).originEnergyLimit = t.originEnergyLimit ∧
    (createStrip t).abi = t.abi ∧
    (createStrip t).bytecode = t.bytecode ∧
    (createStrip t).rawParameter = t.rawParameter ∧
    (createStrip t).name = t.name ∧
    sendTransactionDispatch (createStrip t).method =
      ([], TxOutcome.delegatedBase) :=
  ⟨rfl, rfl, rfl, rfl, rfl, rfl, rfl, rfl, rfl, rfl, rfl⟩

end HardhatTron
